import Mathlib

/-!
Verification of the streamed-document assembler of `frontend/app/page.tsx`
(`handleStartLearning`).  The transport delivers decoded text chunks; the
code splits each chunk on the blank-line delimiter, interprets every
`data:`-prefixed line, accumulates `content` fragments and finally parses
the accumulated buffer as JSON.

Text is modelled as `List Char` (a decoded JS string).  JS strings are
UTF-16 code-unit sequences while Lean chars are scalar values; none of the
properties below depend on surrogate-level behaviour, so this is faithful
for the inputs at hand.
-/

set_option autoImplicit false

namespace StreamAssembler

/-- JSON values as produced by `JSON.parse`.  Numbers keep their source
literal: no claim below depends on numeric re-formatting, only on parse
success and on structural shape.  Object fields are kept in source order;
duplicate keys are resolved last-wins at lookup time, as in JS. -/
inductive Json where
  | jnull : Json
  | jbool : Bool → Json
  | jnum : List Char → Json
  | jstr : List Char → Json
  | jarr : List Json → Json
  | jobj : List (List Char × Json) → Json

/-- JSON interelement whitespace (ECMA-404): space, tab, LF, CR. -/
def isJsonWs (c : Char) : Bool :=
  c = ' ' || c = '\t' || c = '\n' || c = '\r'

/-- Whitespace trimmed by JS `String.prototype.trim`: the ECMAScript
WhiteSpace production (TAB, VT, FF, SP, NBSP, ZWNBSP and the
Space_Separator category U+1680, U+2000-U+200A, U+202F, U+205F,
U+3000) together with the LineTerminator production (LF, CR, LS, PS). -/
def isJsWs (c : Char) : Bool :=
  let n := c.toNat
  n = 0x09 || n = 0x0a || n = 0x0b || n = 0x0c || n = 0x0d || n = 0x20 ||
    n = 0xa0 || n = 0x1680 || (0x2000 ≤ n && n ≤ 0x200a) || n = 0x2028 ||
    n = 0x2029 || n = 0x202f || n = 0x205f || n = 0x3000 || n = 0xfeff

/-- `s.trim()` of JS: strip leading and trailing whitespace. -/
def jsTrim (t : List Char) : List Char :=
  ((t.dropWhile isJsWs).reverse.dropWhile isJsWs).reverse

/-- `a.startsWith p` on JS strings. -/
def textStartsWith (t p : List Char) : Bool :=
  match t, p with
  | _, [] => true
  | [], _ :: _ => false
  | c :: cs, q :: qs => c = q && textStartsWith cs qs

/-- Decimal digit test for the JSON number grammar. -/
def isDigitCh (c : Char) : Bool := '0' ≤ c && c ≤ '9'

/-- Hex digit value for `\uXXXX` escapes; `none` when not a hex digit.
Written over code points: 48-57 are `0`-`9`, 97-102 are `a`-`f`,
65-70 are `A`-`F`. -/
def hexVal (c : Char) : Option Nat :=
  let n := c.toNat
  if 48 ≤ n && n ≤ 57 then some (n - 48)
  else if 97 ≤ n && n ≤ 102 then some (n - 87)
  else if 65 ≤ n && n ≤ 70 then some (n - 55)
  else none

/-- Body of a JSON string literal, after the opening quote: returns the
decoded characters and the rest of the input after the closing quote.
`JSON.parse` rejects raw control characters and invalid escapes.  A
`\uXXXX` escape becomes the scalar of that value (surrogate-pair
recombination is beyond `Char` and never exercised here). -/
def parseStrBody : List Char → Option (List Char × List Char)
  | [] => none
  | '"' :: rest => some ([], rest)
  | '\\' :: '"' :: rest => (fun p => ('"' :: p.1, p.2)) <$> parseStrBody rest
  | '\\' :: '\\' :: rest => (fun p => ('\\' :: p.1, p.2)) <$> parseStrBody rest
  | '\\' :: '/' :: rest => (fun p => ('/' :: p.1, p.2)) <$> parseStrBody rest
  | '\\' :: 'b' :: rest => (fun p => ('\x08' :: p.1, p.2)) <$> parseStrBody rest
  | '\\' :: 'f' :: rest => (fun p => ('\x0c' :: p.1, p.2)) <$> parseStrBody rest
  | '\\' :: 'n' :: rest => (fun p => ('\n' :: p.1, p.2)) <$> parseStrBody rest
  | '\\' :: 'r' :: rest => (fun p => ('\r' :: p.1, p.2)) <$> parseStrBody rest
  | '\\' :: 't' :: rest => (fun p => ('\t' :: p.1, p.2)) <$> parseStrBody rest
  | '\\' :: 'u' :: h1 :: h2 :: h3 :: h4 :: rest =>
    match hexVal h1, hexVal h2, hexVal h3, hexVal h4 with
    | some v1, some v2, some v3, some v4 =>
      (fun p => (Char.ofNat (((v1 * 16 + v2) * 16 + v3) * 16 + v4) :: p.1, p.2)) <$>
        parseStrBody rest
    | _, _, _, _ => none
  | '\\' :: _ => none
  | c :: rest =>
    if c.toNat < 0x20 then none
    else (fun p => (c :: p.1, p.2)) <$> parseStrBody rest

/-- The digits of a JSON number's integer part: a single `0`, or a
nonzero digit followed by digits.  Returns the literal and the rest. -/
def parseIntDigits : List Char → Option (List Char × List Char)
  | '0' :: rest => some (['0'], rest)
  | c :: rest =>
    if '1' ≤ c && c ≤ '9' then
      some (c :: rest.takeWhile isDigitCh, rest.dropWhile isDigitCh)
    else none
  | [] => none

/-- Fraction part: `.` followed by one or more digits, or nothing. -/
def parseFrac : List Char → Option (List Char × List Char)
  | '.' :: rest =>
    match rest.takeWhile isDigitCh with
    | [] => none
    | ds => some ('.' :: ds, rest.dropWhile isDigitCh)
  | rest => some ([], rest)

/-- Exponent part: `e`/`E`, optional sign, one or more digits, or nothing. -/
def parseExp : List Char → Option (List Char × List Char)
  | c :: rest =>
    if c = 'e' || c = 'E' then
      match rest with
      | s :: rest2 =>
        if s = '+' || s = '-' then
          match rest2.takeWhile isDigitCh with
          | [] => none
          | ds => some (c :: s :: ds, rest2.dropWhile isDigitCh)
        else
          match rest.takeWhile isDigitCh with
          | [] => none
          | ds => some (c :: ds, rest.dropWhile isDigitCh)
      | [] => none
    else some ([], c :: rest)
  | [] => some ([], [])

/-- A JSON number literal: `-?(0|[1-9][0-9]*)(\.[0-9]+)?([eE][+-]?[0-9]+)?`. -/
def parseNum : List Char → Option (List Char × List Char)
  | '-' :: rest =>
    match parseIntDigits rest with
    | none => none
    | some (i, r1) =>
      match parseFrac r1 with
      | none => none
      | some (f, r2) =>
        match parseExp r2 with
        | none => none
        | some (e, r3) => some ('-' :: (i ++ f ++ e), r3)
  | input =>
    match parseIntDigits input with
    | none => none
    | some (i, r1) =>
      match parseFrac r1 with
      | none => none
      | some (f, r2) =>
        match parseExp r2 with
        | none => none
        | some (e, r3) => some (i ++ f ++ e, r3)

mutual

/-- One JSON value at the head of the input (whitespace already skipped).
Fuel only bounds nesting; `parseJsonText` supplies more fuel than any
input can consume, so exhaustion never fires on reachable inputs. -/
def parseValue : Nat → List Char → Option (Json × List Char)
  | 0, _ => none
  | _ + 1, 't' :: 'r' :: 'u' :: 'e' :: rest => some (.jbool true, rest)
  | _ + 1, 'f' :: 'a' :: 'l' :: 's' :: 'e' :: rest => some (.jbool false, rest)
  | _ + 1, 'n' :: 'u' :: 'l' :: 'l' :: rest => some (.jnull, rest)
  | _ + 1, '"' :: rest =>
    (fun p => (Json.jstr p.1, p.2)) <$> parseStrBody rest
  | fuel + 1, '[' :: rest =>
    match (rest.dropWhile isJsonWs) with
    | ']' :: rest2 => some (.jarr [], rest2)
    | rest2 => (fun p => (Json.jarr p.1, p.2)) <$> parseElems fuel rest2
  | fuel + 1, '\x7b' :: rest =>
    match (rest.dropWhile isJsonWs) with
    | '\x7d' :: rest2 => some (.jobj [], rest2)
    | rest2 => (fun p => (Json.jobj p.1, p.2)) <$> parseMembers fuel rest2
  | _ + 1, input =>
    (fun p => (Json.jnum p.1, p.2)) <$> parseNum input

/-- Comma-separated array elements up to the closing bracket.  The input
starts at a value (whitespace skipped). -/
def parseElems : Nat → List Char → Option (List Json × List Char)
  | 0, _ => none
  | fuel + 1, input =>
    match parseValue fuel input with
    | none => none
    | some (v, rest) =>
      match rest.dropWhile isJsonWs with
      | ']' :: rest2 => some ([v], rest2)
      | ',' :: rest2 =>
        (fun p => (v :: p.1, p.2)) <$> parseElems fuel (rest2.dropWhile isJsonWs)
      | _ => none

/-- Comma-separated object members up to the closing brace.  The input
starts at a key string (whitespace skipped). -/
def parseMembers : Nat → List Char → Option (List (List Char × Json) × List Char)
  | 0, _ => none
  | fuel + 1, '"' :: keyRest =>
    match parseStrBody keyRest with
    | none => none
    | some (key, rest) =>
      match rest.dropWhile isJsonWs with
      | ':' :: rest2 =>
        match parseValue fuel (rest2.dropWhile isJsonWs) with
        | none => none
        | some (v, rest3) =>
          match rest3.dropWhile isJsonWs with
          | '\x7d' :: rest4 => some ([(key, v)], rest4)
          | ',' :: rest4 =>
            (fun p => ((key, v) :: p.1, p.2)) <$>
              parseMembers fuel (rest4.dropWhile isJsonWs)
          | _ => none
      | _ => none
  | _ + 1, _ => none

end

/-- `JSON.parse(t)`: skip whitespace, parse one value, require only
whitespace after it.  `none` models the thrown `SyntaxError`. -/
def parseJsonText (t : List Char) : Option Json :=
  match parseValue (2 * t.length + 8) (t.dropWhile isJsonWs) with
  | none => none
  | some (v, rest) =>
    match rest.dropWhile isJsonWs with
    | [] => some v
    | _ :: _ => none

mutual

/-- JS string coercion `"" + v` of a value obtained from `JSON.parse`,
as performed by `accumulatedJson += parsed.content` when the `content`
field holds a non-string.  Numbers surface their kept literal (see
`Json.jnum`); arrays join their coerced elements with commas, a `null`
element contributing the empty string; plain objects print as
`[object Object]`. -/
def jsToString : Json → List Char
  | .jnull => String.toList "null"
  | .jbool true => String.toList "true"
  | .jbool false => String.toList "false"
  | .jnum raw => raw
  | .jstr s => s
  | .jarr elems => jsArrElems elems
  | .jobj _ => String.toList "[object Object]"

/-- `Array.prototype.join` with the default comma separator, under the
same coercion. -/
def jsArrElems : List Json → List Char
  | [] => []
  | [Json.jnull] => []
  | [v] => jsToString v
  | Json.jnull :: rest => ',' :: jsArrElems rest
  | v :: rest => jsToString v ++ ',' :: jsArrElems rest

end

/-- Last-wins property lookup on a parsed JS object, as JS resolves
duplicate keys from `JSON.parse`. -/
def getProp (fields : List (List Char × Json)) (key : List Char) : Option Json :=
  fields.foldl (fun acc kv => if kv.1 = key then some kv.2 else acc) none

/-- The `"data:"` prefix tested by `line.startsWith("data:")`. -/
def dataColon : List Char := String.toList "data:"

/-- The termination sentinel payload `[DONE]`. -/
def doneTok : List Char := String.toList "[DONE]"

/-- `split("\n\n")` of JS on the chunk text: greedy left-to-right
non-overlapping split on the two-newline delimiter. -/
def splitOnDelim : List Char → List (List Char)
  | [] => [[]]
  | '\n' :: '\n' :: rest => [] :: splitOnDelim rest
  | c :: rest =>
    match splitOnDelim rest with
    | [] => [[c]]
    | seg :: segs => (c :: seg) :: segs

/-- Mutable state of the read loop: `accumulatedJson` (line 44) and
whether `break readLoop` was taken on the sentinel. -/
structure AsmState where
  accumulatedJson : List Char
  doneSeen : Bool

/-- The text appended to `accumulatedJson` by `accumulatedJson +=
parsed.content`, or `none` when the access itself throws (a `null`
parse result has no properties, and the `catch` swallows the error).
An absent `content` field is `undefined` and coerces to the literal
text `undefined`. -/
def contentAppend : Json → Option (List Char)
  | .jnull => none
  | .jobj fields =>
    match getProp fields (String.toList "content") with
    | some v => some (jsToString v)
    | none => some (String.toList "undefined")
  | _ => some (String.toList "undefined")

/-- The body of the `for (const line of lines)` loop (page.tsx lines
53-66) acting on one line: once the sentinel broke the loop no further
line has any effect; a line without the `data:` prefix is skipped; the
payload after the prefix is trimmed and checked against `[DONE]`;
otherwise it is `JSON.parse`d inside a `try`, a failure being swallowed
and a success appending the coerced `content` field. -/
def stepLine (st : AsmState) (line : List Char) : AsmState :=
  if st.doneSeen then st
  else if textStartsWith line dataColon then
    let dataContent := jsTrim (line.drop 5)
    if dataContent = doneTok then { st with doneSeen := true }
    else
      match parseJsonText dataContent with
      | none => st
      | some parsed =>
        match contentAppend parsed with
        | none => st
        | some s => { st with accumulatedJson := st.accumulatedJson ++ s }
  else st

/-- All lines of one chunk, in order. -/
def processLines (st : AsmState) (lines : List (List Char)) : AsmState :=
  lines.foldl stepLine st

/-- One iteration of the read loop on a delivered chunk: split on the
delimiter, then run the line loop. -/
def processChunk (st : AsmState) (chunk : List Char) : AsmState :=
  processLines st (splitOnDelim chunk)

/-- The whole read loop over the delivered chunks.  After `break
readLoop` the code reads nothing further; since `stepLine` then leaves
the state untouched, folding over the remaining chunks is
state-equivalent. -/
def processChunks (st : AsmState) (chunks : List (List Char)) : AsmState :=
  chunks.foldl processChunk st

/-- Terminal result of one assembly attempt: the final plan delivered to
`setLearningPlan`, the parse-failure path (lines 73-78, the raw buffer
is retained for the `console.error` diagnostic), or the transport-error
path of the outer `catch`. -/
inductive StreamOutcome where
  | success : Json → StreamOutcome
  | parseFailure : List Char → StreamOutcome
  | transportFailure : StreamOutcome

/-- The final block (lines 69-79): an empty `accumulatedJson` is falsy
and throws `No data received`, caught by the same inner `catch` as a
`JSON.parse` failure; a nonempty buffer is parsed and delivered. -/
def finalParse (acc : List Char) : StreamOutcome :=
  if acc = [] then .parseFailure []
  else
    match parseJsonText acc with
    | some doc => .success doc
    | none => .parseFailure acc

/-- `accumulatedJson = ""` before the read loop, no sentinel seen. -/
def initialState : AsmState := ⟨[], false⟩

/-- Observable behaviour of `handleStartLearning` given the transport
accept signal (`response.ok && response.body`) and the decoded chunks:
a rejected transport throws at line 40 into the outer `catch` and the
stream is never read; otherwise the read loop runs to termination and
the final block parses whatever was accumulated. -/
def handleStartLearning (ok : Bool) (chunks : List (List Char)) : StreamOutcome :=
  if ok then finalParse (processChunks initialState chunks).accumulatedJson
  else .transportFailure

/-- Number of `reader.read()` calls the loop performs on this run: one
per delivered chunk until the sentinel breaks the loop, plus the final
read that reports end-of-stream when the loop was still running. -/
def readLoopCount : AsmState → List (List Char) → Nat
  | st, [] => if st.doneSeen then 0 else 1
  | st, c :: cs => if st.doneSeen then 0 else 1 + readLoopCount (processChunk st c) cs

/-- `reader.read()` calls of the whole attempt: a rejected transport
throws before the reader is even created. -/
def readCalls (ok : Bool) (chunks : List (List Char)) : Nat :=
  if ok then readLoopCount initialState chunks else 0

/-- A chunk ends at a frame boundary when the splitter consumes it
fully, leaving an empty trailing segment. -/
def endsAtFrameBoundary (c : List Char) : Prop :=
  ∃ segs, splitOnDelim c = segs ++ [[]]

/-- A line the extractor classifies `Ignore`: no `data:` prefix, or a
non-sentinel payload that `JSON.parse` rejects. -/
def inertLine (l : List Char) : Prop :=
  textStartsWith l dataColon = false ∨
    (jsTrim (l.drop 5) ≠ doneTok ∧ parseJsonText (jsTrim (l.drop 5)) = none)

/-- The assembler's outcome as a function of the flattened line list. -/
def assembleLines (ok : Bool) (lines : List (List Char)) : StreamOutcome :=
  if ok then finalParse (processLines initialState lines).accumulatedJson
  else .transportFailure

/-- String test used by the spec-side schema below. -/
def isJsonString : Json → Bool
  | .jstr _ => true
  | _ => false

/-- Follows the spec's words (FinalDocument schema): a task is an object
with a string `description` and an array `subtasks` of strings.  This is
a spec-side definition, stated only to compare the code's delivered
values against the schema the spec promises; the code itself performs no
such check. -/
def specTaskSchema : Json → Bool
  | .jobj fields =>
    (match getProp fields (("description").toList) with
     | some (.jstr _) => true
     | _ => false) &&
    (match getProp fields (("subtasks").toList) with
     | some (.jarr els) => els.all isJsonString
     | _ => false)
  | _ => false

/-- Follows the spec's words (FinalDocument schema): an object with a
string `title` and an array `tasks` of task-shaped objects. -/
def specFinalDocumentSchema : Json → Bool
  | .jobj fields =>
    (match getProp fields (("title").toList) with
     | some (.jstr _) => true
     | _ => false) &&
    (match getProp fields (("tasks").toList) with
     | some (.jarr els) => els.all specTaskSchema
     | _ => false)
  | _ => false

/-! ### Basic lemmas about the splitter and the line loop -/

/-- The splitter always returns at least one (possibly empty) segment. -/
theorem splitOnDelim_ne_nil (t : List Char) : splitOnDelim t ≠ [] := by
  induction t using splitOnDelim.induct <;> simp_all [splitOnDelim]

/-- Greedy splitting is compositional at a consumed-delimiter boundary:
when `a` is fully consumed ending in a delimiter (its split ends with an
empty segment), splitting `a ++ b` yields `a`'s complete segments
followed by the split of `b`. -/
theorem splitOnDelim_append (a : List Char) : ∀ (segs : List (List Char)) (b : List Char),
    splitOnDelim a = segs ++ [[]] → splitOnDelim (a ++ b) = segs ++ splitOnDelim b := by
  induction a using splitOnDelim.induct with
  | case1 =>
    intro segs b h
    simp only [splitOnDelim] at h
    cases segs with
    | nil => simp [splitOnDelim]
    | cons s ss =>
      exfalso
      rw [List.cons_append] at h
      injection h with h1 h2
      exact absurd h2.symm (by simp)
  | case2 rest ih =>
    intro segs b h
    simp only [splitOnDelim] at h
    cases segs with
    | nil =>
      exfalso
      rw [List.nil_append] at h
      injection h with h1 h2
      exact splitOnDelim_ne_nil rest h2
    | cons s ss =>
      rw [List.cons_append] at h
      injection h with h1 h2
      show splitOnDelim ('\n' :: '\n' :: (rest ++ b)) = (s :: ss) ++ splitOnDelim b
      simp only [splitOnDelim]
      rw [ih ss b h2, ← h1]
      rfl
  | case3 c rest hne hnil ih => exact absurd hnil (splitOnDelim_ne_nil rest)
  | case4 c rest hne seg segs2 hsr ih =>
    intro segs b h
    rw [splitOnDelim.eq_3 c rest hne, hsr] at h
    cases segs with
    | nil =>
      exfalso
      rw [List.nil_append] at h
      injection h with h1 h2
      exact List.noConfusion h1
    | cons s ss =>
      rw [List.cons_append] at h
      injection h with h1 h2
      have hsr2 : splitOnDelim rest = (seg :: ss) ++ [[]] := by
        rw [hsr, h2]; rfl
      have hne2 : ∀ r, c = '\n' → rest ++ b = '\n' :: r → False := by
        intro r hc hr
        cases rest with
        | nil =>
          simp only [splitOnDelim] at hsr
          injection hsr with e1 e2
          rw [← e2] at h2
          exact absurd h2.symm (by simp)
        | cons x rest2 =>
          rw [List.cons_append] at hr
          injection hr with hx _
          exact hne rest2 hc (by rw [hx])
      rw [List.cons_append, splitOnDelim.eq_3 c (rest ++ b) hne2, ih (seg :: ss) b hsr2, ← h1]
      rfl

/-- An empty line does not start with `data:` and is skipped. -/
theorem stepLine_nil (st : AsmState) : stepLine st [] = st := by
  have h : textStartsWith [] dataColon = false := rfl
  simp [stepLine, h]

/-- Once the sentinel broke the loop, no line changes the state. -/
theorem stepLine_done (st : AsmState) (l : List Char) (h : st.doneSeen = true) :
    stepLine st l = st := by
  simp [stepLine, h]

/-- Once the sentinel broke the loop, no batch of lines changes the state. -/
theorem processLines_done (st : AsmState) (ls : List (List Char)) (h : st.doneSeen = true) :
    processLines st ls = st := by
  induction ls with
  | nil => rfl
  | cons x xs ih =>
    show processLines (stepLine st x) xs = st
    rw [stepLine_done st x h]
    exact ih

/-- The line loop over a concatenation of batches runs them in order. -/
theorem processLines_append (st : AsmState) (l1 l2 : List (List Char)) :
    processLines st (l1 ++ l2) = processLines (processLines st l1) l2 := by
  simp [processLines, List.foldl_append]

/-- The read loop is the line loop over all lines of all chunks in
arrival order. -/
theorem processChunks_eq_lines : ∀ (chunks : List (List Char)) (st : AsmState),
    processChunks st chunks = processLines st ((chunks.map splitOnDelim).flatten) := by
  intro chunks
  induction chunks with
  | nil => intro st; rfl
  | cons ch cs ih =>
    intro st
    simp only [List.map_cons, List.flatten_cons]
    rw [processLines_append]
    exact ih (processChunk st ch)

/-- When every chunk ends at a frame boundary, processing the chunks one
by one equals processing their concatenation as a single chunk. -/
theorem processChunks_join : ∀ (chunks : List (List Char)) (st : AsmState),
    (∀ c ∈ chunks, endsAtFrameBoundary c) →
    processChunks st chunks = processLines st (splitOnDelim chunks.flatten) := by
  intro chunks
  induction chunks with
  | nil =>
    intro st _
    show st = processLines st (splitOnDelim [])
    simp only [splitOnDelim]
    show st = stepLine st []
    rw [stepLine_nil]
  | cons ch cs ih =>
    intro st h
    obtain ⟨segs, hsegs⟩ := h ch (by simp)
    have hcs : ∀ c ∈ cs, endsAtFrameBoundary c := fun c hc => h c (by simp [hc])
    show processChunks (processChunk st ch) cs = processLines st (splitOnDelim (ch ++ cs.flatten))
    rw [ih (processChunk st ch) hcs, splitOnDelim_append ch segs cs.flatten hsegs]
    show processLines (processLines st (splitOnDelim ch)) (splitOnDelim cs.flatten) = _
    rw [hsegs, ← processLines_append]
    have : (segs ++ [[]]) ++ splitOnDelim cs.flatten = segs ++ ([[]] ++ splitOnDelim cs.flatten) := by
      simp
    rw [this, processLines_append, processLines_append]
    show processLines (stepLine (processLines st segs) []) _ = _
    rw [stepLine_nil, ← processLines_append]

/-! ### Further lemmas for individual claims -/

/-- A line meeting the sentinel test (the `data:` prefix and a payload
trimming to `[DONE]`) leaves the loop in the broken state. -/
theorem stepLine_sentinel (st : AsmState) (f : List Char)
    (h1 : textStartsWith f dataColon = true) (h2 : jsTrim (f.drop 5) = doneTok) :
    (stepLine st f).doneSeen = true := by
  cases hd : st.doneSeen with
  | true => rw [stepLine_done st f hd]; exact hd
  | false => simp [stepLine, hd, h1, h2]

/-- An `Ignore`-classified line never changes the loop state. -/
theorem stepLine_inert (st : AsmState) (l : List Char) (h : inertLine l) :
    stepLine st l = st := by
  cases hd : st.doneSeen with
  | true => exact stepLine_done st l hd
  | false =>
    rcases h with h | ⟨h1, h2⟩
    · simp [stepLine, hd, h]
    · by_cases hp : textStartsWith l dataColon
      · simp [stepLine, hd, hp, h1, h2]
      · simp [stepLine, hd, hp]

/-- `handleStartLearning` consumes exactly the flattened line lists of
the delivered chunks, in arrival order. -/
theorem handleStartLearning_eq_assembleLines (ok : Bool) (chunks : List (List Char)) :
    handleStartLearning ok chunks = assembleLines ok ((chunks.map splitOnDelim).flatten) := by
  unfold handleStartLearning assembleLines
  rw [processChunks_eq_lines]

/-- Appending a whole sentinel frame as a final chunk, from a state that
has not yet seen the sentinel, only sets the broken flag. -/
theorem processChunk_doneChunk (buf : List Char) :
    processChunk ⟨buf, false⟩ (("data: [DONE]\n\n").toList) = ⟨buf, true⟩ := rfl

/-! ### Claims -/

/-- C3 (status: code_bug) — evaluation of the code at the failing input.
The spec says a parsed frame without a `content` field contributes the
empty string, leaving the buffer unchanged; the code runs
`accumulatedJson += parsed.content` with `parsed.content === undefined`,
appending the literal text `undefined` and corrupting the buffer, so the
final parse fails on it. -/
theorem claim3_code_divergence :
    stepLine initialState (("data: \x7b\x7d").toList) = ⟨("undefined").toList, false⟩ ∧
    handleStartLearning true [("data: \x7b\x7d\n\n").toList]
      = .parseFailure (("undefined").toList) :=
  ⟨rfl, rfl⟩

/-- C4 — sentinel precedence: within one batch of lines, every line
after a sentinel frame is never processed; the loop state (and hence the
accumulated buffer) equals that of the batch truncated at the sentinel. -/
theorem claim4_sentinel_precedence (st : AsmState) (pre post : List (List Char))
    (f : List Char) (h1 : textStartsWith f dataColon = true)
    (h2 : jsTrim (f.drop 5) = doneTok) :
    processLines st (pre ++ f :: post) = processLines st (pre ++ [f]) := by
  rw [processLines_append, processLines_append]
  show processLines (stepLine (processLines st pre) f) post
      = processLines (processLines st pre) [f]
  rw [processLines_done _ post (stepLine_sentinel (processLines st pre) f h1 h2)]
  rfl

/-- Witness for C4 at a concrete batch: a content frame, the sentinel,
then a trailing content frame that is dropped. -/
theorem claim4_witness :
    textStartsWith (("data: [DONE]").toList) dataColon = true ∧
    jsTrim ((("data: [DONE]").toList).drop 5) = doneTok ∧
    processLines initialState
        [("data: \x7b\"content\":\"4\"\x7d").toList, ("data: [DONE]").toList,
         ("data: \x7b\"content\":\"2\"\x7d").toList]
      = processLines initialState
        [("data: \x7b\"content\":\"4\"\x7d").toList, ("data: [DONE]").toList] :=
  ⟨rfl, rfl,
    claim4_sentinel_precedence initialState [("data: \x7b\"content\":\"4\"\x7d").toList]
      [("data: \x7b\"content\":\"2\"\x7d").toList] (("data: [DONE]").toList) rfl rfl⟩

/-- C5 — implicit termination on close: when the stream ends without the
sentinel ever seen, the outcome is the final parse of the accumulated
buffer — exactly the outcome the same stream would produce with an
explicit sentinel frame appended; the close is not a transport error. -/
theorem claim5_implicit_termination (chunks : List (List Char))
    (h : (processChunks initialState chunks).doneSeen = false) :
    handleStartLearning true chunks
        = finalParse (processChunks initialState chunks).accumulatedJson ∧
    handleStartLearning true (chunks ++ [("data: [DONE]\n\n").toList])
        = handleStartLearning true chunks := by
  refine ⟨rfl, ?_⟩
  show finalParse (processChunks initialState (chunks ++ _)).accumulatedJson
      = finalParse (processChunks initialState chunks).accumulatedJson
  have e : processChunks initialState (chunks ++ [("data: [DONE]\n\n").toList])
      = processChunk (processChunks initialState chunks) (("data: [DONE]\n\n").toList) := by
    simp [processChunks, List.foldl_append]
  rw [e]
  cases hps : processChunks initialState chunks with
  | mk buf dn =>
    rw [hps] at h
    simp only at h
    rw [h, processChunk_doneChunk buf]

/-- Witness for C5 on the empty stream. -/
theorem claim5_witness :
    (processChunks initialState []).doneSeen = false ∧
    (handleStartLearning true []
        = finalParse (processChunks initialState []).accumulatedJson ∧
     handleStartLearning true ([] ++ [("data: [DONE]\n\n").toList])
        = handleStartLearning true []) :=
  ⟨rfl, claim5_implicit_termination [] rfl⟩

/-- C6 — empty-stream failure: whenever the run ends with an empty
accumulated buffer, the outcome is the parse failure of the final block
(`No data received`), never a success. -/
theorem claim6_empty_buffer_failure (chunks : List (List Char))
    (h : (processChunks initialState chunks).accumulatedJson = []) :
    handleStartLearning true chunks = .parseFailure [] := by
  simp [handleStartLearning, finalParse, h]

/-- Witness for C6: a stream that closes after only a sentinel frame. -/
theorem claim6_witness :
    (processChunks initialState [("data: [DONE]\n\n").toList]).accumulatedJson = [] ∧
    handleStartLearning true [("data: [DONE]\n\n").toList] = .parseFailure [] :=
  ⟨rfl, claim6_empty_buffer_failure [("data: [DONE]\n\n").toList] rfl⟩

/-- C7 — transport failure short-circuits: a rejected response throws at
line 40, the outcome is the transport failure of the outer catch, the
reader is never read, and the final-parse block can never produce that
outcome (so it was never reached). -/
theorem claim7_transport_failure_no_read (chunks : List (List Char)) :
    handleStartLearning false chunks = .transportFailure ∧
    readCalls false chunks = 0 ∧
    ∀ acc : List Char, finalParse acc ≠ .transportFailure := by
  refine ⟨rfl, rfl, ?_⟩
  intro acc h
  unfold finalParse at h
  split at h
  · exact StreamOutcome.noConfusion h
  · split at h <;> exact StreamOutcome.noConfusion h

/-- C9 — an unprefixed sentinel is not a sentinel: a line trimming to
`[DONE]` but lacking the `data:` prefix leaves the state unchanged, so
consumption continues. -/
theorem claim9_unprefixed_done_ignored (st : AsmState) (line : List Char)
    (_h1 : jsTrim line = doneTok) (h2 : textStartsWith line dataColon = false) :
    stepLine st line = st := by
  cases hd : st.doneSeen with
  | true => exact stepLine_done st line hd
  | false => simp [stepLine, hd, h2]

/-- Witness for C9 at the bare line `[DONE]`. -/
theorem claim9_witness :
    jsTrim (("[DONE]").toList) = doneTok ∧
    textStartsWith (("[DONE]").toList) dataColon = false ∧
    stepLine initialState (("[DONE]").toList) = initialState :=
  ⟨rfl, rfl, claim9_unprefixed_done_ignored initialState (("[DONE]").toList) rfl rfl⟩

/-- The `data:` prefix of a longer line passes `startsWith`. -/
theorem textStartsWith_append (p t : List Char) : textStartsWith (p ++ t) p = true := by
  induction p with
  | nil => cases t <;> rfl
  | cons q qs ih => simp [textStartsWith, ih]

/-- C10 — a `data:` frame whose payload is only whitespace: the trimmed
payload is empty, which is not the sentinel and is rejected by
`JSON.parse`, so the frame is skipped — no termination, no failure, no
buffer change. -/
theorem claim10_whitespace_payload_ignored (st : AsmState) (ws : List Char)
    (h : ∀ c ∈ ws, isJsWs c = true) :
    stepLine st (dataColon ++ ws) = st := by
  have h1 : ws.dropWhile isJsWs = [] := by
    rw [List.dropWhile_eq_nil_iff]
    exact h
  have hws : jsTrim ws = [] := by
    unfold jsTrim
    rw [h1]
    rfl
  have hdrop : (dataColon ++ ws).drop 5 = ws := by
    have e : dataColon.length = 5 := rfl
    rw [← e, List.drop_left]
  have hne : ¬(([] : List Char) = doneTok) := by decide
  have hpj : parseJsonText ([] : List Char) = none := rfl
  cases hd : st.doneSeen with
  | true => exact stepLine_done _ _ hd
  | false => simp [stepLine, hd, textStartsWith_append, hdrop, hws, hne, hpj]

/-- Witness for C10 at the line `data:` followed by two spaces. -/
theorem claim10_witness :
    (∀ c ∈ [' ', ' '], isJsWs c = true) ∧
    stepLine initialState (dataColon ++ [' ', ' ']) = initialState :=
  ⟨by decide, claim10_whitespace_payload_ignored initialState [' ', ' '] (by decide)⟩

/-- C2 (status: corrected) — counterexample to the claim as stated: the
code delivers `Success` for any buffer that is valid JSON, with no
schema validation; here the assembled buffer `42` parses as a bare
number, which is not a FinalDocument, yet the outcome is `Success`. -/
theorem claim2_counterexample :
    handleStartLearning true [("data: \x7b\"content\":\"42\"\x7d\n\n").toList]
      = .success (.jnum ['4', '2']) ∧
    specFinalDocumentSchema (.jnum ['4', '2']) = false :=
  ⟨rfl, rfl⟩

/-- C2 amended — the outcome is `Success doc` exactly when the
accumulated buffer is nonempty and `JSON.parse` accepts it with result
`doc`; the FinalDocument schema is never consulted. -/
theorem claim2_amended_success_iff_json (chunks : List (List Char)) (doc : Json) :
    handleStartLearning true chunks = .success doc ↔
      ((processChunks initialState chunks).accumulatedJson ≠ [] ∧
       parseJsonText ((processChunks initialState chunks).accumulatedJson) = some doc) := by
  show finalParse (processChunks initialState chunks).accumulatedJson = .success doc ↔ _
  generalize (processChunks initialState chunks).accumulatedJson = acc
  unfold finalParse
  by_cases h : acc = []
  · simp [h]
  · rw [if_neg h]
    cases hp : parseJsonText acc with
    | none => simp [h, hp]
    | some v => simp [h, hp]

/-- C8 (status: corrected) — counterexample to the claim as stated: the
frame `data: [DONE]` is `data:`-prefixed and its payload is invalid
JSON, yet it is not classified `Ignore` — the sentinel test runs before
the parse, so inserting it terminates the stream early and changes the
final outcome from `Success` to an empty-buffer `ParseFailure`. -/
theorem claim8_counterexample :
    textStartsWith (("data: [DONE]").toList) dataColon = true ∧
    parseJsonText (jsTrim ((("data: [DONE]").toList).drop 5)) = none ∧
    handleStartLearning true
        [("data: [DONE]\n\n").toList, ("data: \x7b\"content\":\"42\"\x7d\n\n").toList]
      = .parseFailure [] ∧
    handleStartLearning true [("data: \x7b\"content\":\"42\"\x7d\n\n").toList]
      = .success (.jnum ['4', '2']) ∧
    StreamOutcome.parseFailure [] ≠ .success (.jnum ['4', '2']) :=
  ⟨rfl, rfl, rfl, rfl, fun hne => StreamOutcome.noConfusion hne⟩

/-- C8 amended — malformed-frame resilience holds for every frame the
extractor classifies `Ignore`: a frame lacking the `data:` prefix, or
whose trimmed payload is rejected by `JSON.parse` and is not the
`[DONE]` sentinel, can be inserted at any position without changing the
final outcome. -/
theorem claim8_inert_frame_invariance (ok : Bool) (pre post : List (List Char))
    (f : List Char) (h : inertLine f) :
    assembleLines ok (pre ++ f :: post) = assembleLines ok (pre ++ post) := by
  have e : processLines initialState (pre ++ f :: post)
      = processLines initialState (pre ++ post) := by
    rw [processLines_append, processLines_append]
    show processLines (stepLine (processLines initialState pre) f) post = _
    rw [stepLine_inert _ _ h]
  cases ok with
  | false => rfl
  | true =>
    show finalParse (processLines initialState (pre ++ f :: post)).accumulatedJson
        = finalParse (processLines initialState (pre ++ post)).accumulatedJson
    rw [e]

/-- Witness for C8 amended: inserting the junk line before a content
frame leaves the outcome unchanged. -/
theorem claim8_amended_witness :
    inertLine (("junk").toList) ∧
    assembleLines true [("junk").toList, ("data: \x7b\"content\":\"1\"\x7d").toList]
      = assembleLines true [("data: \x7b\"content\":\"1\"\x7d").toList] :=
  ⟨Or.inl rfl,
    claim8_inert_frame_invariance true [] [("data: \x7b\"content\":\"1\"\x7d").toList]
      (("junk").toList) (Or.inl rfl)⟩

/-- C1 (status: corrected) — counterexample to the claim as stated: the
wire framing of the FinalDocument `{"title":"X","tasks":[]}` assembles
correctly when delivered whole, but cutting the same text at an offset
inside the frame yields an empty buffer and a `ParseFailure`: the code
splits each chunk independently and carries no tail, so both pieces of
the cut frame are discarded (the first fails `JSON.parse`, the second
lacks the `data:` prefix). -/
theorem claim1_counterexample :
    (("data: \x7b\"cont").toList)
        ++ (("ent\":\"\x7b\\\"title\\\":\\\"X\\\",\\\"tasks\\\":[]\x7d\"\x7d\n\n").toList)
      = ("data: \x7b\"content\":\"\x7b\\\"title\\\":\\\"X\\\",\\\"tasks\\\":[]\x7d\"\x7d\n\n").toList ∧
    handleStartLearning true
        [("data: \x7b\"content\":\"\x7b\\\"title\\\":\\\"X\\\",\\\"tasks\\\":[]\x7d\"\x7d\n\n").toList]
      = .success (.jobj [(("title").toList, .jstr ['X']), (("tasks").toList, .jarr [])]) ∧
    specFinalDocumentSchema
        (.jobj [(("title").toList, .jstr ['X']), (("tasks").toList, .jarr [])]) = true ∧
    handleStartLearning true
        [("data: \x7b\"cont").toList,
         ("ent\":\"\x7b\\\"title\\\":\\\"X\\\",\\\"tasks\\\":[]\x7d\"\x7d\n\n").toList]
      = .parseFailure [] ∧
    StreamOutcome.parseFailure []
      ≠ .success (.jobj [(("title").toList, .jstr ['X']), (("tasks").toList, .jarr [])]) :=
  ⟨rfl, rfl, rfl, rfl, fun hne => StreamOutcome.noConfusion hne⟩

/-- C1 amended — chunk-boundary invariance holds exactly for cuts
aligned with frame boundaries: when every chunk is fully consumed by
the splitter ending at a delimiter, assembling the chunk sequence gives
the same outcome as receiving the whole serialization in one chunk. -/
theorem claim1_aligned_chunk_invariance (ok : Bool) (chunks : List (List Char))
    (h : ∀ c ∈ chunks, endsAtFrameBoundary c) :
    handleStartLearning ok chunks = handleStartLearning ok [chunks.flatten] := by
  cases ok with
  | false => rfl
  | true =>
    show finalParse (processChunks initialState chunks).accumulatedJson
        = finalParse (processChunks initialState [chunks.flatten]).accumulatedJson
    rw [processChunks_join chunks initialState h]
    rfl

/-- Witness for C1 amended on a two-chunk frame-aligned delivery. -/
theorem claim1_amended_witness :
    (∀ c ∈ [("data: \x7b\"content\":\"4\"\x7d\n\n").toList,
            ("data: \x7b\"content\":\"2\"\x7d\n\n").toList], endsAtFrameBoundary c) ∧
    handleStartLearning true
        [("data: \x7b\"content\":\"4\"\x7d\n\n").toList,
         ("data: \x7b\"content\":\"2\"\x7d\n\n").toList]
      = handleStartLearning true
        [([("data: \x7b\"content\":\"4\"\x7d\n\n").toList,
           ("data: \x7b\"content\":\"2\"\x7d\n\n").toList] : List (List Char)).flatten] := by
  have h : ∀ c ∈ [("data: \x7b\"content\":\"4\"\x7d\n\n").toList,
      ("data: \x7b\"content\":\"2\"\x7d\n\n").toList], endsAtFrameBoundary c := by
    intro c hc
    simp only [List.mem_cons, List.not_mem_nil, or_false] at hc
    rcases hc with rfl | rfl
    · exact ⟨[("data: \x7b\"content\":\"4\"\x7d").toList], rfl⟩
    · exact ⟨[("data: \x7b\"content\":\"2\"\x7d").toList], rfl⟩
  exact ⟨h, claim1_aligned_chunk_invariance true _ h⟩

end StreamAssembler
